import Mathlib

/-!
Verification development for the AI-Gym-Coach backend
(pose-data formatting, prompt construction, model-response extraction and
normalization).  The Python sources under `src/backend/` are shallowly
embedded below: Python dictionaries become association lists over a dynamic
value type `JVal`, machine floats become rationals, fallible operations
(subscripts, attribute access, string formatting) return `Except String`,
and the standard-library `json.loads` collaborator is modelled by an
executable JSON parser `jsonParse`.
-/

/-- Dynamic JSON-like values, modelling the Python values that flow through
the backend: results of `json.loads`, request payloads and landmark
dictionaries.  Numbers are modelled as rationals (the bit-level semantics of
machine floats is out of scope); Python treats `bool` as a numeric type, so
booleans are kept as a separate constructor that counts as numeric. -/
inductive JVal where
  | jnull
  | jbool (b : Bool)
  | jnum (q : ℚ)
  | jstr (s : String)
  | jarr (xs : List JVal)
  | jobj (kvs : List (String × JVal))

/-- Python truthiness (`bool(v)`): `None`, `False`, `0`, `""`, `[]`, `{}`
are falsy, everything else truthy. -/
def pyTruthy : JVal → Bool
  | .jnull => false
  | .jbool b => b
  | .jnum q => !(q == 0)
  | .jstr s => !(s == "")
  | .jarr xs => !xs.isEmpty
  | .jobj kvs => !kvs.isEmpty

/-- Coarse rendering of a value for prompt interpolation (`str(v)` inside an
f-string).  Only strings matter to the claims; other cases are best-effort. -/
def pyStr : JVal → String
  | .jnull => "None"
  | .jbool b => if b then "True" else "False"
  | .jnum q => toString q
  | .jstr s => s
  | .jarr _ => "[...]"
  | .jobj _ => "\x7b...\x7d"

/-- Whitespace characters removed by Python's `str.strip()`. -/
def isWs (c : Char) : Bool :=
  c == ' ' || c == '\t' || c == '\n' || c == '\r' || c == '\x0b' || c == '\x0c'

/-- Strip leading and trailing whitespace from a character list. -/
def stripL (s : List Char) : List Char :=
  ((s.dropWhile isWs).reverse.dropWhile isWs).reverse

/-- Embeds Python's `str.strip()`. -/
def pyStrip (s : String) : String := String.mk (stripL s.data)

/-- Boolean prefix test on character lists. -/
def isPre : List Char → List Char → Bool
  | [], _ => true
  | _, [] => false
  | a :: as, b :: bs => a == b && isPre as bs

/-- `occAt pat s i` holds when `pat` occurs in `s` starting at index `i`. -/
def occAt (pat s : List Char) (i : Nat) : Bool := isPre pat (s.drop i)

/-- Index of the first occurrence of `pat` (Python `str.find`, `None` for
`-1`). -/
def findSubL (pat : List Char) : List Char → Option Nat
  | [] => if isPre pat [] then some 0 else none
  | c :: t => if isPre pat (c :: t) then some 0 else (findSubL pat t).map (· + 1)

/-- Index of the last occurrence of `pat` (Python `str.rfind`, `None` for
`-1`). -/
def rfindSubL (pat : List Char) : List Char → Option Nat
  | [] => if isPre pat [] then some 0 else none
  | c :: t =>
    match rfindSubL pat t with
    | some j => some (j + 1)
    | none => if isPre pat (c :: t) then some 0 else none

/-- Normalize a Python slice index: negative indices count from the end,
then the result is clamped to `[0, n]`. -/
def clampIdx (n : Nat) (i : Int) : Nat :=
  if i < 0 then (max (i + n) 0).toNat else min i.toNat n

/-- Python slice `s[a:b]` on a character list. -/
def pySliceL (xs : List Char) (a b : Int) : List Char :=
  (xs.take (clampIdx xs.length b)).drop (clampIdx xs.length a)

/-- Python slice `s[a:b]` on strings. -/
def pySlice (s : String) (a b : Int) : String := String.mk (pySliceL s.data a b)

/-- Embeds Python's `s.find(sub)`: first index, or `-1` when absent. -/
def pyFind (s sub : String) : Int :=
  match findSubL sub.data s.data with
  | some n => (n : Int)
  | none => -1

/-- Embeds Python's `s.find(sub, start)`. -/
def pyFindFrom (s sub : String) (start : Int) : Int :=
  let st := clampIdx s.data.length start
  match findSubL sub.data (s.data.drop st) with
  | some n => ((n + st : Nat) : Int)
  | none => -1

/-- Embeds Python's `s.rfind(sub)`: last index, or `-1` when absent. -/
def pyRfind (s sub : String) : Int :=
  match rfindSubL sub.data s.data with
  | some n => (n : Int)
  | none => -1

/-- Embeds Python's `sub in s` on strings. -/
def pyContains (s sub : String) : Bool := (findSubL sub.data s.data).isSome

/-- Key membership in an association list (Python `key in dict`). -/
def hasKey (kvs : List (String × JVal)) (k : String) : Bool :=
  kvs.any (fun kv => kv.1 == k)

/-- Value lookup in an association list. -/
def lookupV (kvs : List (String × JVal)) (k : String) : Option JVal :=
  (kvs.find? (fun kv => kv.1 == k)).map (fun kv => kv.2)

/-- Python `dict.get(k, d)`. -/
def dictGetD (kvs : List (String × JVal)) (k : String) (d : JVal) : JVal :=
  match lookupV kvs k with
  | some v => v
  | none => d

/-- Python dict item assignment `d[k] = x`: replaces in place when the key
exists (keeping its position), otherwise appends at the end. -/
def dictSet (kvs : List (String × JVal)) (k : String) (x : JVal) : List (String × JVal) :=
  if hasKey kvs k then kvs.map (fun kv => if kv.1 == k then (k, x) else kv)
  else kvs ++ [(k, x)]

/-- Python `key in v` for a dynamic value: key membership for dicts,
element equality for lists, substring test for strings; iteration over
`None`, numbers or booleans raises `TypeError`. -/
def pyIn (field : String) : JVal → Except String Bool
  | .jobj kvs => .ok (hasKey kvs field)
  | .jarr xs => .ok (xs.any (fun v => match v with | .jstr s => s == field | _ => false))
  | .jstr s => .ok (pyContains s field)
  | _ => .error "TypeError: argument is not iterable"

/-- Python subscript `v[k]` with a string key: only dicts support it. -/
def pyGetItem (v : JVal) (k : String) : Except String JVal :=
  match v with
  | .jobj kvs =>
    match lookupV kvs k with
    | some x => .ok x
    | none => .error "KeyError"
  | _ => .error "TypeError: value is not subscriptable by string"

/-- Python item assignment `v[k] = x` with a string key. -/
def pySetItem (v : JVal) (k : String) (x : JVal) : Except String JVal :=
  match v with
  | .jobj kvs => .ok (.jobj (dictSet kvs k x))
  | _ => .error "TypeError: value does not support item assignment"

/-- Python `v.items()`: only dicts have it. -/
def pyItems : JVal → Except String (List (String × JVal))
  | .jobj kvs => .ok kvs
  | _ => .error "AttributeError: items"

/-- Python `v.get(k, d)`: only dicts have it. -/
def pyDictGetD (v : JVal) (k : String) (d : JVal) : Except String JVal :=
  match v with
  | .jobj kvs => .ok (dictGetD kvs k d)
  | _ => .error "AttributeError: get"

/-- Python iteration `for x in v`: lists yield elements, strings yield
one-character strings, dicts yield their keys; other values raise. -/
def pyIterList : JVal → Except String (List JVal)
  | .jarr xs => .ok xs
  | .jstr s => .ok (s.data.map (fun c => .jstr c.toString))
  | .jobj kvs => .ok (kvs.map (fun kv => .jstr kv.1))
  | _ => .error "TypeError: value is not iterable"

/-- Python `len(v)`. -/
def pyLen : JVal → Except String Nat
  | .jarr xs => .ok xs.length
  | .jstr s => .ok s.data.length
  | .jobj kvs => .ok kvs.length
  | _ => .error "TypeError: value has no len"

/-- Python slice `v[:n]` on a dynamic value (lists and strings only). -/
def pySliceVal (v : JVal) (n : Nat) : Except String JVal :=
  match v with
  | .jarr xs => .ok (.jarr (xs.take n))
  | .jstr s => .ok (.jstr (String.mk (s.data.take n)))
  | _ => .error "TypeError: value is not sliceable"

/-- Python `v.lower()`: only strings have it.  Lower-casing is modelled
per-character (ASCII case folding — the table's exercise names are ASCII). -/
def pyLower : JVal → Except String String
  | .jstr s => .ok (String.mk (s.data.map Char.toLower))
  | _ => .error "AttributeError: lower"

/-- Does the value count as a Python number (`isinstance(v, (int, float))`)?
Python booleans are a subclass of `int`, so they pass. -/
def isPyNumber : JVal → Bool
  | .jnum _ => true
  | .jbool _ => true
  | _ => false

/-- Numeric view of a value (only meaningful under `isPyNumber`). -/
def toQ : JVal → ℚ
  | .jnum q => q
  | .jbool b => if b then 1 else 0
  | _ => 0

/-- Two-digit zero-padded rendering of a natural number below 100. -/
def decPad2 (n : Nat) : String := (if n < 10 then "0" else "") ++ toString n

/-- Fixed-point rendering of a rational with two decimal places, modelling
Python's `f"{v:.2f}"` on the numbers the backend handles (half-up rounding;
float bit-level rounding is out of scope). -/
def fmt2Q (q : ℚ) : String :=
  let n : Int := ⌊q * 100 + 1 / 2⌋
  (if n < 0 then "-" else "") ++ toString (n.natAbs / 100) ++ "." ++ decPad2 (n.natAbs % 100)

/-- Fixed-point rendering with one decimal place (`f"{v:.1f}"`). -/
def fmt1Q (q : ℚ) : String :=
  let n : Int := ⌊q * 10 + 1 / 2⌋
  (if n < 0 then "-" else "") ++ toString (n.natAbs / 10) ++ "." ++ toString (n.natAbs % 10)

/-- Error raised by Python when a `:.2f` format is applied to a non-numeric
value (for example the string `'N/A'`). -/
def fmtErrMsg : String := "ValueError: unknown format code f for object"

/-- Python `f"{v:.2f}"` on a dynamic value: numbers (and booleans) format,
anything else raises. -/
def fmt2 : JVal → Except String String
  | .jnum q => .ok (fmt2Q q)
  | .jbool b => .ok (fmt2Q (if b then 1 else 0))
  | _ => .error fmtErrMsg

/-- Python `f"{v:.1f}"` on a dynamic value. -/
def fmt1 : JVal → Except String String
  | .jnum q => .ok (fmt1Q q)
  | .jbool b => .ok (fmt1Q (if b then 1 else 0))
  | _ => .error fmtErrMsg

/-- Skip JSON whitespace. -/
def skipWs : List Char → List Char
  | c :: rest => if isWs c then skipWs rest else c :: rest
  | [] => []

/-- Parse the body of a JSON string literal (after the opening quote),
returning the decoded characters and the remaining input. -/
def parseStr : List Char → Option (List Char × List Char)
  | [] => none
  | '"' :: rest => some ([], rest)
  | '\\' :: c :: rest =>
    match (match c with
      | '"' => some '"'
      | '\\' => some '\\'
      | '/' => some '/'
      | 'n' => some '\n'
      | 't' => some '\t'
      | 'r' => some '\r'
      | _ => none) with
    | some d => (parseStr rest).map (fun p => (d :: p.1, p.2))
    | none => none
  | c :: rest => (parseStr rest).map (fun p => (c :: p.1, p.2))

/-- Accumulate a run of decimal digits: value, digit count, rest. -/
def parseDigits : List Char → Nat → Nat → Nat × Nat × List Char
  | c :: rest, acc, cnt =>
    if c.isDigit then parseDigits rest (acc * 10 + (c.toNat - 48)) (cnt + 1)
    else (acc, cnt, c :: rest)
  | [], acc, cnt => (acc, cnt, [])

/-- Parse a JSON number (optional sign, integer part, optional fraction). -/
def parseNum (s : List Char) : Option (JVal × List Char) :=
  let sp := match s with | '-' :: r => (true, r) | _ => (false, s)
  let ip := parseDigits sp.2 0 0
  if ip.2.1 = 0 then none
  else
    match ip.2.2 with
    | '.' :: r =>
      let fp := parseDigits r 0 0
      if fp.2.1 = 0 then none
      else
        let q : ℚ := (ip.1 : ℚ) + (fp.1 : ℚ) / ((10 : ℚ) ^ fp.2.1)
        some (.jnum (if sp.1 then -q else q), fp.2.2)
    | rest => some (.jnum (if sp.1 then -(ip.1 : ℚ) else (ip.1 : ℚ)), rest)

mutual

/-- Fueled JSON value parser, modelling the standard-library collaborator
`json.loads` (objects, arrays, strings, numbers, booleans, null). -/
def parseVal : Nat → List Char → Option (JVal × List Char)
  | 0, _ => none
  | fuel + 1, s =>
    match skipWs s with
    | [] => none
    | '\x7b' :: rest => parseMembers fuel (skipWs rest) []
    | '[' :: rest => parseElems fuel (skipWs rest) []
    | '"' :: rest => (parseStr rest).map (fun p => (.jstr (String.mk p.1), p.2))
    | c :: rest =>
      if c = 't' then
        if isPre ['r', 'u', 'e'] rest then some (.jbool true, rest.drop 3) else none
      else if c = 'f' then
        if isPre ['a', 'l', 's', 'e'] rest then some (.jbool false, rest.drop 4) else none
      else if c = 'n' then
        if isPre ['u', 'l', 'l'] rest then some (.jnull, rest.drop 3) else none
      else if c = '-' ∨ c.isDigit then parseNum (c :: rest)
      else none

/-- Parse the members of a JSON object after the opening brace. -/
def parseMembers : Nat → List Char → List (String × JVal) → Option (JVal × List Char)
  | 0, _, _ => none
  | fuel + 1, s, acc =>
    match s with
    | '\x7d' :: rest => some (.jobj acc.reverse, rest)
    | '"' :: rest =>
      match parseStr rest with
      | none => none
      | some (key, r1) =>
        match skipWs r1 with
        | ':' :: r2 =>
          match parseVal fuel r2 with
          | none => none
          | some (v, r3) =>
            match skipWs r3 with
            | ',' :: r4 => parseMembers fuel (skipWs r4) ((String.mk key, v) :: acc)
            | '\x7d' :: r4 => some (.jobj ((String.mk key, v) :: acc).reverse, r4)
            | _ => none
        | _ => none
    | _ => none

/-- Parse the elements of a JSON array after the opening bracket. -/
def parseElems : Nat → List Char → List JVal → Option (JVal × List Char)
  | 0, _, _ => none
  | fuel + 1, s, acc =>
    match s with
    | ']' :: rest => some (.jarr acc.reverse, rest)
    | s' =>
      match parseVal fuel s' with
      | none => none
      | some (v, r1) =>
        match skipWs r1 with
        | ',' :: r2 => parseElems fuel (skipWs r2) (v :: acc)
        | ']' :: r2 => some (.jarr (v :: acc).reverse, r2)
        | _ => none

end

/-- Embeds the `json.loads` collaborator: parse a whole string as one JSON
value, failing (like `json.JSONDecodeError`) when nothing parses or
trailing input remains. -/
def jsonParse (s : String) : Option JVal :=
  match parseVal (2 * s.data.length + 2) s.data with
  | some (v, rest) => if skipWs rest = [] then some v else none
  | none => none

/-- Embeds `Config.EXERCISE_LANDMARKS` (src/backend/config.py): exercise
name to the landmark identifiers diagnostic for that exercise. -/
def EXERCISE_LANDMARKS : List (String × List String) := [
  ("squat", ["leftHip", "rightHip", "leftKnee", "rightKnee",
             "leftAnkle", "rightAnkle", "leftShoulder", "rightShoulder"]),
  ("push-up", ["leftShoulder", "rightShoulder", "leftElbow", "rightElbow",
               "leftWrist", "rightWrist", "leftHip", "rightHip"]),
  ("deadlift", ["leftHip", "rightHip", "leftKnee", "rightKnee",
                "leftShoulder", "rightShoulder", "leftAnkle", "rightAnkle"]),
  ("bench press", ["leftShoulder", "rightShoulder", "leftElbow", "rightElbow",
                   "leftWrist", "rightWrist"]),
  ("pull-up", ["leftShoulder", "rightShoulder", "leftElbow", "rightElbow",
               "leftWrist", "rightWrist", "leftHip", "rightHip"]),
  ("plank", ["leftShoulder", "rightShoulder", "leftElbow", "rightElbow",
             "leftHip", "rightHip", "leftAnkle", "rightAnkle"]),
  ("lunge", ["leftHip", "rightHip", "leftKnee", "rightKnee",
             "leftAnkle", "rightAnkle", "leftShoulder", "rightShoulder"])]

/-- Embeds the default of `Config.CONFIDENCE_THRESHOLD`
(src/backend/config.py): `float(os.getenv('CONFIDENCE_THRESHOLD', '0.5'))`.
The rational one half is written as an explicit numerator/denominator pair so
that comparisons against it reduce inside the kernel;
`CONFIDENCE_THRESHOLD_eq` below shows it equals `1 / 2`. -/
def CONFIDENCE_THRESHOLD : ℚ := ⟨1, 2, by decide, by decide⟩

/-- Embeds the profile lookup in `PoseAnalyzer.format_pose_data`
(src/backend/analyzers/pose_analyzer.py, lines 38-41):
`EXERCISE_LANDMARKS.get(exercise_name.lower() if exercise_name else None, None)`.
A falsy exercise name looks up the key `None`, which is never in the table. -/
def lookupProfile (exerciseName : JVal) : Except String (Option (List String)) :=
  if pyTruthy exerciseName then do
    let low ← pyLower exerciseName
    pure ((EXERCISE_LANDMARKS.find? (fun kv => kv.1 == low)).map (fun kv => kv.2))
  else pure none

/-- Embeds the `landmarks_to_show` selection in `format_pose_data`
(pose_analyzer.py, lines 50-54): with a truthy profile keep only
observations whose identifier is in it, otherwise keep all; iterating a
non-dict `landmarks` value raises. -/
def shownLandmarks (relevant : Option (List String)) (landmarks : JVal) :
    Except String (List (String × JVal)) := do
  let kvs ← pyItems landmarks
  match relevant with
  | some prof =>
    pure (if prof.isEmpty then kvs else kvs.filter (fun kv => prof.contains kv.1))
  | none => pure kvs

/-- Embeds the per-landmark loop body of `format_pose_data`
(pose_analyzer.py, lines 56-65): non-dict observations are skipped; the
coordinates default to the string `'N/A'` and confidence to `0`; a line is
emitted only when the confidence is numeric and strictly above the
threshold, and rendering a non-numeric coordinate with `:.2f` raises. -/
def formatLandmark (threshold : ℚ) (name : String) (ld : JVal) :
    Except String (Option String) :=
  match ld with
  | .jobj kvs =>
    let x := dictGetD kvs "x" (.jstr "N/A")
    let y := dictGetD kvs "y" (.jstr "N/A")
    let z := dictGetD kvs "z" (.jstr "N/A")
    let conf := dictGetD kvs "confidence" (.jnum 0)
    if isPyNumber conf && decide (threshold < toQ conf) then do
      let fx ← fmt2 x
      let fy ← fmt2 y
      let fz ← fmt2 z
      let fc ← fmt2 conf
      pure (some ("  • " ++ name ++ ": x=" ++ fx ++ ", y=" ++ fy ++ ", z=" ++ fz ++
        " (conf: " ++ fc ++ ")\n"))
    else pure none
  | _ => pure none

/-- Embeds the per-person block of `format_pose_data` (pose_analyzer.py,
lines 43-67): a `Person N:` header, then one line per retained
high-confidence landmark, then a blank line (only when the pose has a
`landmarks` key). -/
def formatPose (threshold : ℚ) (relevant : Option (List String)) (idx : Nat)
    (pose : JVal) : Except String String := do
  let header := "Person " ++ toString (idx + 1) ++ ":\n"
  let hasLms ← pyIn "landmarks" pose
  if hasLms then do
    let landmarks ← pyGetItem pose "landmarks"
    let shown ← shownLandmarks relevant landmarks
    let body ← shown.foldlM (fun acc kv => do
      match ← formatLandmark threshold kv.1 kv.2 with
      | some line => pure (acc ++ line)
      | none => pure acc) ""
    pure (header ++ body ++ "\n")
  else pure header

/-- Embeds `PoseAnalyzer.format_pose_data` (pose_analyzer.py, lines 23-69).
The confidence threshold is passed explicitly (the class wires in the
configured value, default 1/2). -/
def format_pose_data (threshold : ℚ) (poses : JVal) (exerciseName : JVal) :
    Except String String := do
  let relevant ← lookupProfile exerciseName
  let ps ← pyIterList poses
  let body ← ps.enum.foldlM (fun acc ip => do
    let block ← formatPose threshold relevant ip.1 ip.2
    pure (acc ++ block)) ""
  pure ("POSE DATA ANALYSIS:\n\n" ++ body)

/-- Embeds the JSON-extraction block shared by
`PoseAnalyzer.analyze_exercise_form` (pose_analyzer.py, lines 123-138) and
the `/real-time-feedback` route (analysis_routes.py, lines 78-92), applied
to the stripped model text: a json-tagged fence, else any fence, else a
brace span when both braces occur, else the text unchanged.  Every step is
built from total string primitives, so extraction never raises. -/
def extractA (t : String) : String :=
  if pyContains t "```json" then
    let a := pyFind t "```json" + 7
    pyStrip (pySlice t a (pyFindFrom t "```" a))
  else if pyContains t "```" then
    pyStrip (pySlice t (pyFind t "```" + 3) (pyRfind t "```"))
  else if pyContains t "\x7b" && pyContains t "\x7d" then
    pySlice t (pyFind t "\x7b") (pyRfind t "\x7d" + 1)
  else t

/-- Embeds the JSON-extraction block of the `/analyze-angles` and
`/analyze-form-issue` routes (analysis_routes.py, lines 186-198 and
283-295): identical fence handling, but the final branch takes the brace
span unconditionally (no containment test and no raw-text fallback). -/
def extractB (t : String) : String :=
  if pyContains t "```json" then
    let a := pyFind t "```json" + 7
    pyStrip (pySlice t a (pyFindFrom t "```" a))
  else if pyContains t "```" then
    pyStrip (pySlice t (pyFind t "```" + 3) (pyRfind t "```"))
  else
    pySlice t (pyFind t "\x7b") (pyRfind t "\x7d" + 1)

/-- Embeds the parse-failure fallback payload of `analyze_exercise_form`
(pose_analyzer.py, lines 150-159). -/
def fullFallback (exerciseName : JVal) (t : String) : JVal :=
  .jobj [
    ("exercise_name", if pyTruthy exerciseName then exerciseName else .jstr "Unknown"),
    ("form_score", .jnum 5),
    ("issues", .jarr [.jstr "Unable to parse detailed analysis"]),
    ("corrections", .jarr [.jstr "Review the raw feedback below"]),
    ("positives", .jarr []),
    ("overall_feedback", .jstr t),
    ("raw_response", .jstr t)]

/-- Embeds the parse-failure fallback of `/real-time-feedback`
(analysis_routes.py, lines 108-111). -/
def realtimeFallback (t : String) : JVal :=
  .jobj [
    ("critical_issues", .jarr [.jstr "Form check in progress"]),
    ("immediate_action", .jstr t)]

/-- Embeds the parse-failure fallback of `/analyze-angles`
(analysis_routes.py, lines 204-208). -/
def anglesFallback (t : String) : JVal :=
  .jobj [
    ("form_quality", .jstr "needs_improvement"),
    ("corrections", .jarr [.jstr "Review the detected form issues"]),
    ("encouragement", .jstr t)]

/-- Embeds the parse-failure fallback of `/analyze-form-issue`
(analysis_routes.py, lines 301-305); the salvaged `cue` text is truncated
to 50 characters. -/
def issueFallback (t : String) : JVal :=
  .jobj [
    ("quick_fix", .jstr "Adjust your form based on the detected issue"),
    ("why_it_matters", .jstr "Proper form prevents injury and improves results"),
    ("cue", .jstr (pySlice t 0 50))]

/-- The required fields of the full-analysis schema (pose_analyzer.py,
line 143). -/
def requiredFieldsFull : List String :=
  ["exercise_name", "form_score", "issues", "corrections", "positives", "overall_feedback"]

/-- The list-typed fields of the full-analysis schema (pose_analyzer.py,
line 146). -/
def listFieldsFull : List String := ["issues", "corrections", "positives"]

/-- Default synthesized for an absent full-analysis field:
`[] if field in ['issues', 'corrections', 'positives'] else ""`. -/
def fieldDefault (f : String) : JVal :=
  if listFieldsFull.contains f then .jarr [] else .jstr ""

/-- Embeds the required-field loop of `analyze_exercise_form`
(pose_analyzer.py, lines 143-146): `if field not in analysis:
analysis[field] = default`.  Membership tests and item assignment follow
Python's dynamic semantics, so a non-dict parse result can raise here
(a `TypeError`, which the inner `except` does not catch). -/
def fillFields (fields : List String) (v : JVal) : Except String JVal :=
  fields.foldlM (fun a f => do
    let c ← pyIn f a
    if c then pure a else pySetItem a f (fieldDefault f)) v

/-- The full-analysis defaulting step over `requiredFieldsFull`. -/
def fillRequiredFull (v : JVal) : Except String JVal := fillFields requiredFieldsFull v

/-- Embeds the real-time defaulting and truncation block
(analysis_routes.py, lines 96-104): default `critical_issues` to `[]` and
`immediate_action` to the stripped model text, then truncate
`critical_issues` to its first three entries when longer than three. -/
def realtimeFill (feedback : JVal) (jsonText : String) : Except String JVal := do
  let c1 ← pyIn "critical_issues" feedback
  let fb1 ← if c1 then pure feedback else pySetItem feedback "critical_issues" (.jarr [])
  let c2 ← pyIn "immediate_action" fb1
  let fb2 ← if c2 then pure fb1 else pySetItem fb1 "immediate_action" (.jstr jsonText)
  let ci ← pyGetItem fb2 "critical_issues"
  let n ← pyLen ci
  if n > 3 then do
    let tr ← pySliceVal ci 3
    pySetItem fb2 "critical_issues" tr
  else pure fb2

/-- Embeds the full-analysis response processing (pose_analyzer.py, lines
123-159): extract, parse with `json.loads`; on success run the
required-field defaulting, on `JSONDecodeError` build the fallback
payload. -/
def fullProcess (exerciseName : JVal) (t : String) : Except String JVal :=
  match jsonParse (extractA t) with
  | some a => fillRequiredFull a
  | none => .ok (fullFallback exerciseName t)

/-- Embeds the `/real-time-feedback` response processing
(analysis_routes.py, lines 75-111). -/
def realtimeProcess (t : String) : Except String JVal :=
  match jsonParse (extractA t) with
  | some f => realtimeFill f t
  | none => .ok (realtimeFallback t)

/-- Embeds the `/analyze-angles` response processing (analysis_routes.py,
lines 183-208): no defaulting on parse success, fallback on failure. -/
def anglesProcess (t : String) : Except String JVal :=
  match jsonParse (extractB t) with
  | some a => .ok a
  | none => .ok (anglesFallback t)

/-- Embeds the `/analyze-form-issue` response processing
(analysis_routes.py, lines 280-305): no defaulting on parse success,
fallback (with the 50-character `cue` truncation) on failure. -/
def issueProcess (t : String) : Except String JVal :=
  match jsonParse (extractB t) with
  | some c => .ok c
  | none => .ok (issueFallback t)

/-- Embeds the full-analysis prompt template (pose_analyzer.py, lines
88-114). -/
def promptFull (exerciseName : JVal) (poseText : String) : String :=
  "You are an expert personal trainer and biomechanics specialist analyzing exercise form.\n\nEXERCISE: "
  ++ (if pyTruthy exerciseName then pyStr exerciseName else "Unknown - identify it")
  ++ "\n\n" ++ poseText
  ++ "\n\nANALYSIS REQUIRED:\nAnalyze the body positioning and movement patterns. Provide structured feedback in JSON format.\n\nRESPONSE FORMAT (strict JSON):\n\x7b\n  \"exercise_name\": \"identified or confirmed exercise name\",\n  \"form_score\": <number 0-10>,\n  \"issues\": [\"issue 1\", \"issue 2\", ...],\n  \"corrections\": [\"specific correction 1\", \"specific correction 2\", ...],\n  \"positives\": [\"positive aspect 1\", \"positive aspect 2\", ...],\n  \"overall_feedback\": \"brief summary in 2-3 sentences\"\n\x7d\n\nFOCUS ON:\n- Joint angles and alignment\n- Weight distribution\n- Range of motion\n- Common form mistakes for this exercise\n- Safety considerations\n\nRespond ONLY with valid JSON."

/-- Embeds the real-time prompt template (analysis_routes.py, lines 57-71). -/
def promptRealtime (exerciseName : JVal) (poseText : String) : String :=
  "You are a real-time fitness coach. Analyze this pose snapshot.\n\nEXERCISE: "
  ++ pyStr exerciseName
  ++ "\n\n" ++ poseText
  ++ "\n\nProvide IMMEDIATE, ACTIONABLE feedback. Focus on the most critical issue RIGHT NOW.\n\nRESPONSE FORMAT (strict JSON):\n\x7b\n  \"critical_issues\": [\"issue 1\", \"issue 2\", \"issue 3\"],\n  \"immediate_action\": \"One clear instruction to fix the main problem\"\n\x7d\n\nKeep it SHORT and SPECIFIC. Respond ONLY with valid JSON."

/-- Embeds `PoseAnalyzer.analyze_exercise_form` (pose_analyzer.py, lines
71-171).  The Gemini client (`model.generate_content` followed by
`response.text`) is the Model Gateway collaborator, modelled as a function
from the prompt to either the response text or a raised error.  The outer
`try` catches every exception and yields the error payload. -/
def analyze_exercise_form (gateway : String → Except String String)
    (poses exerciseName : JVal) : List (String × JVal) :=
  match (do
    let poseText ← format_pose_data CONFIDENCE_THRESHOLD poses exerciseName
    let raw ← gateway (promptFull exerciseName poseText)
    let responseText := pyStrip raw
    fullProcess exerciseName responseText : Except String JVal) with
  | .ok analysis => [("success", .jbool true), ("analysis", analysis)]
  | .error e => [("success", .jbool false), ("error", .jstr e)]

/-- Embeds the `/real-time-feedback` route handler (analysis_routes.py,
lines 31-123): request unpacking, the empty-poses 400, the pipeline, and
the catch-all 500.  The result is the HTTP status paired with the JSON
payload. -/
def real_time_feedback (gateway : String → Except String String) (data : JVal) :
    Nat × List (String × JVal) :=
  match (do
    let poses ← pyDictGetD data "poses" (.jarr [])
    let exerciseName ← pyDictGetD data "exercise" (.jstr "")
    if !pyTruthy poses then
      return (400, [("success", JVal.jbool false), ("error", JVal.jstr "No pose data provided")])
    let poseText ← format_pose_data CONFIDENCE_THRESHOLD poses exerciseName
    let raw ← gateway (promptRealtime exerciseName poseText)
    let jsonText := pyStrip raw
    let feedback ← realtimeProcess jsonText
    pure (200, [("success", JVal.jbool true), ("feedback", feedback)])
    : Except String (Nat × List (String × JVal))) with
  | .ok r => r
  | .error e => (500, [("success", .jbool false), ("error", .jstr e)])

theorem CONFIDENCE_THRESHOLD_eq : CONFIDENCE_THRESHOLD = 1 / 2 := by
  have h1 : CONFIDENCE_THRESHOLD.num = 1 := rfl
  have h2 : CONFIDENCE_THRESHOLD.den = 2 := rfl
  rw [← Rat.num_div_den CONFIDENCE_THRESHOLD, h1, h2]
  norm_num

theorem stringMk_data (s : String) : String.mk s.data = s := by
  cases s
  rfl

theorem isPre_iff (p s : List Char) : isPre p s = true ↔ ∃ r, s = p ++ r := by
  induction p generalizing s with
  | nil => simp [isPre]
  | cons a as ih =>
    cases s with
    | nil =>
      simp [isPre]
    | cons b bs =>
      simp only [isPre, Bool.and_eq_true, beq_iff_eq, ih, List.cons_append, List.cons.injEq]
      constructor
      · rintro ⟨hab, r, hr⟩
        exact ⟨r, hab.symm, hr⟩
      · rintro ⟨r, hba, hr⟩
        exact ⟨hba.symm, r, hr⟩

theorem occAt_succ_cons (p : List Char) (c : Char) (t : List Char) (j : Nat) :
    occAt p (c :: t) (j + 1) = occAt p t j := by
  simp [occAt]

theorem occAt_zero (p s : List Char) : occAt p s 0 = isPre p s := by
  simp [occAt]

theorem occAt_drop (p s : List Char) (k j : Nat) :
    occAt p (s.drop k) j = occAt p s (k + j) := by
  simp [occAt, List.drop_drop, Nat.add_comm]

theorem occAt_append (u p r : List Char) : occAt p (u ++ (p ++ r)) u.length = true := by
  rw [occAt, List.drop_left, isPre_iff]
  exact ⟨r, rfl⟩

theorem occAt_ge_length (p : List Char) (hp : p ≠ []) (s : List Char) (j : Nat)
    (h : s.length ≤ j) : occAt p s j = false := by
  have hd : s.drop j = [] := List.drop_eq_nil_of_le h
  rw [occAt, hd]
  cases p with
  | nil => exact absurd rfl hp
  | cons a as => rfl

theorem occ_of_findSubL_eq_some (p s : List Char) (i : Nat)
    (h : findSubL p s = some i) : occAt p s i = true := by
  induction s generalizing i with
  | nil =>
    rw [findSubL] at h
    split at h
    · cases h
      rwa [occAt_zero]
    · cases h
  | cons c t ih =>
    rw [findSubL] at h
    split at h
    · cases h
      rwa [occAt_zero]
    · rcases Option.map_eq_some'.mp h with ⟨j, hj, rfl⟩
      rw [occAt_succ_cons]
      exact ih j hj

theorem findSubL_isSome_of_occ (p s : List Char) (i : Nat)
    (h : occAt p s i = true) : (findSubL p s).isSome = true := by
  induction s generalizing i with
  | nil =>
    rw [occAt, List.drop_nil] at h
    simp [findSubL, h]
  | cons c t ih =>
    rw [findSubL]
    split
    · rfl
    · cases i with
      | zero =>
        rw [occAt_zero] at h
        simp_all
      | succ j =>
        rw [occAt_succ_cons] at h
        simpa using ih j h

theorem findSubL_eq_none_of_not_occ (p s : List Char)
    (h : ∀ j, occAt p s j = false) : findSubL p s = none := by
  induction s with
  | nil =>
    have h0 := h 0
    rw [occAt_zero] at h0
    simp [findSubL, h0]
  | cons c t ih =>
    have h0 := h 0
    rw [occAt_zero] at h0
    rw [findSubL, if_neg (by simp [h0])]
    rw [ih (fun j => by rw [← occAt_succ_cons p c t j]; exact h (j + 1))]
    rfl

theorem findSubL_eq_some_of (p s : List Char) (i : Nat)
    (hocc : occAt p s i = true) (hmin : ∀ j, j < i → occAt p s j = false) :
    findSubL p s = some i := by
  induction s generalizing i with
  | nil =>
    rw [occAt, List.drop_nil] at hocc
    have hi : i = 0 := by
      by_contra hne
      have := hmin 0 (Nat.pos_of_ne_zero hne)
      rw [occAt, List.drop_nil] at this
      simp [hocc] at this
    subst hi
    simp [findSubL, hocc]
  | cons c t ih =>
    rw [findSubL]
    split
    case isTrue hpre =>
      have hi : i = 0 := by
        by_contra hne
        have := hmin 0 (Nat.pos_of_ne_zero hne)
        rw [occAt_zero] at this
        simp [hpre] at this
      simp [hi]
    case isFalse hpre =>
      cases i with
      | zero =>
        rw [occAt_zero] at hocc
        exact absurd hocc (by simpa using hpre)
      | succ j =>
        rw [occAt_succ_cons] at hocc
        have hmin' : ∀ j', j' < j → occAt p t j' = false := by
          intro j' hj'
          rw [← occAt_succ_cons p c t j']
          exact hmin (j' + 1) (by omega)
        rw [ih j hocc hmin']
        rfl

theorem rfindSubL_eq_none_of_not_occ (p s : List Char)
    (h : ∀ j, occAt p s j = false) : rfindSubL p s = none := by
  induction s with
  | nil =>
    have h0 := h 0
    rw [occAt_zero] at h0
    simp [rfindSubL, h0]
  | cons c t ih =>
    have h0 := h 0
    rw [occAt_zero] at h0
    rw [rfindSubL, ih (fun j => by rw [← occAt_succ_cons p c t j]; exact h (j + 1))]
    simp [h0]

theorem rfindSubL_eq_some_of (p : List Char) (hp : p ≠ []) (s : List Char) (i : Nat)
    (hocc : occAt p s i = true) (hmax : ∀ j, i < j → occAt p s j = false) :
    rfindSubL p s = some i := by
  induction s generalizing i with
  | nil =>
    rw [occAt, List.drop_nil] at hocc
    cases p with
    | nil => exact absurd rfl hp
    | cons a as => cases hocc
  | cons c t ih =>
    rw [rfindSubL]
    cases i with
    | zero =>
      rw [occAt_zero] at hocc
      have hnone : rfindSubL p t = none := by
        refine rfindSubL_eq_none_of_not_occ p t (fun j => ?_)
        rw [← occAt_succ_cons p c t j]
        exact hmax (j + 1) (by omega)
      rw [hnone]
      simp [hocc]
    | succ k =>
      rw [occAt_succ_cons] at hocc
      have hmax' : ∀ j, k < j → occAt p t j = false := by
        intro j hj
        rw [← occAt_succ_cons p c t j]
        exact hmax (j + 1) (by omega)
      rw [ih k hocc hmax']

theorem clampIdx_natCast (n : Nat) (k : Nat) (h : k ≤ n) : clampIdx n (k : Int) = k := by
  rw [clampIdx, if_neg (by omega)]
  simp [Int.toNat_natCast]
  omega

theorem pySliceL_extract (u v w : List Char) :
    pySliceL (u ++ v ++ w) (u.length : Int) (((u.length + v.length : Nat) : Int)) = v := by
  have hn : (u ++ v ++ w).length = u.length + v.length + w.length := by
    simp [List.length_append]
    omega
  rw [pySliceL, hn, clampIdx_natCast _ _ (by omega), clampIdx_natCast _ _ (by omega)]
  rw [List.take_left' (by simp [List.length_append])]
  exact List.drop_left u v

theorem pySlice_extract (t : String) (u v w : List Char) (ht : t.data = u ++ v ++ w) :
    pySlice t (u.length : Int) (((u.length + v.length : Nat) : Int)) = String.mk v := by
  rw [pySlice, ht, pySliceL_extract]

theorem stripL_of_ends (c d : Char) (mid : List Char) (hc : isWs c = false)
    (hd : isWs d = false) : stripL (c :: (mid ++ [d])) = c :: (mid ++ [d]) := by
  rw [stripL, List.dropWhile_cons, if_neg (by simp [hc])]
  have h1 : (c :: (mid ++ [d])).reverse = d :: (mid.reverse ++ [c]) := by
    simp
  rw [h1, List.dropWhile_cons, if_neg (by simp [hd])]
  have h2 : (d :: (mid.reverse ++ [c])).reverse = c :: (mid ++ [d]) := by
    simp
  rw [h2]

theorem pyStrip_of_ends (t : String) (c d : Char) (mid : List Char)
    (ht : t.data = c :: (mid ++ [d])) (hc : isWs c = false) (hd : isWs d = false) :
    pyStrip t = t := by
  rw [pyStrip, ht, stripL_of_ends c d mid hc hd, ← ht, stringMk_data]

theorem pyFind_eq_of (s sub : String) (i : Nat)
    (hocc : occAt sub.data s.data i = true)
    (hmin : ∀ j, j < i → occAt sub.data s.data j = false) :
    pyFind s sub = (i : Int) := by
  rw [pyFind, findSubL_eq_some_of sub.data s.data i hocc hmin]

theorem pyRfind_eq_of (s sub : String) (hs : sub.data ≠ []) (i : Nat)
    (hocc : occAt sub.data s.data i = true)
    (hmax : ∀ j, i < j → occAt sub.data s.data j = false) :
    pyRfind s sub = (i : Int) := by
  rw [pyRfind, rfindSubL_eq_some_of sub.data hs s.data i hocc hmax]

theorem pyRfind_eq_neg_of (s sub : String)
    (h : ∀ j, occAt sub.data s.data j = false) : pyRfind s sub = -1 := by
  rw [pyRfind, rfindSubL_eq_none_of_not_occ sub.data s.data h]

theorem pyFind_eq_neg_of (s sub : String)
    (h : ∀ j, occAt sub.data s.data j = false) : pyFind s sub = -1 := by
  rw [pyFind, findSubL_eq_none_of_not_occ sub.data s.data h]

theorem pyContains_of_occ (s sub : String) (i : Nat)
    (hocc : occAt sub.data s.data i = true) : pyContains s sub = true := by
  rw [pyContains]
  exact findSubL_isSome_of_occ sub.data s.data i hocc

theorem pyContains_false_iff (s sub : String) :
    pyContains s sub = false ↔ ∀ j, occAt sub.data s.data j = false := by
  constructor
  · intro h j
    by_contra hne
    have := pyContains_of_occ s sub j (by simpa using hne)
    rw [h] at this
    cases this
  · intro h
    rw [pyContains, findSubL_eq_none_of_not_occ sub.data s.data h]
    rfl

theorem pyContains_json_imp (t : String) (h : pyContains t "```json" = true) :
    pyContains t "```" = true := by
  rw [pyContains] at h
  rcases Option.isSome_iff_exists.mp h with ⟨i, hi⟩
  have hocc := occ_of_findSubL_eq_some _ _ _ hi
  rw [occAt, isPre_iff] at hocc
  rcases hocc with ⟨r, hr⟩
  refine pyContains_of_occ t "```" i ?_
  rw [occAt, isPre_iff]
  exact ⟨'j' :: 's' :: 'o' :: 'n' :: r, by rw [hr]; rfl⟩

theorem pyContains_json_false (t : String) (h : pyContains t "```" = false) :
    pyContains t "```json" = false := by
  by_contra hne
  have := pyContains_json_imp t (by simpa using hne)
  rw [h] at this
  cases this

theorem fenceJson_compute (t : String) (pre mid post : List Char)
    (ht : t.data = pre ++ "```json".data ++ mid ++ "```".data ++ post)
    (hfirst : ∀ j, j < pre.length → occAt "```json".data t.data j = false)
    (hnext : ∀ j, j < pre.length + 7 + mid.length → pre.length + 7 ≤ j →
      occAt "```".data t.data j = false) :
    pyContains t "```json" = true ∧
    pyStrip (pySlice t (pyFind t "```json" + 7)
      (pyFindFrom t "```" (pyFind t "```json" + 7))) = pyStrip (String.mk mid) := by
  have htr : t.data = pre ++ ("```json".data ++ (mid ++ ("```".data ++ post))) := by
    rw [ht]
    simp [List.append_assoc]
  have hocc : occAt "```json".data t.data pre.length = true := by
    rw [htr]
    exact occAt_append pre "```json".data (mid ++ ("```".data ++ post))
  have hfind : findSubL "```json".data t.data = some pre.length :=
    findSubL_eq_some_of _ _ _ hocc hfirst
  have hC : pyContains t "```json" = true := by
    rw [pyContains, hfind]
    rfl
  have hpf : pyFind t "```json" = (pre.length : Int) := by
    rw [pyFind, hfind]
  have ht2 : t.data = (pre ++ "```json".data) ++ (mid ++ ("```".data ++ post)) := by
    rw [htr]
    simp [List.append_assoc]
  have hlen2 : (pre ++ "```json".data).length = pre.length + 7 := by
    simp [List.length_append]
  have hdrop : t.data.drop (pre.length + 7) = mid ++ ("```".data ++ post) := by
    rw [ht2, List.drop_left' hlen2]
  have hlen : pre.length + 7 ≤ t.data.length := by
    rw [ht2, List.length_append, hlen2]
    omega
  have hoccF : occAt "```".data (mid ++ ("```".data ++ post)) mid.length = true :=
    occAt_append mid "```".data post
  have hminF : ∀ j, j < mid.length →
      occAt "```".data (mid ++ ("```".data ++ post)) j = false := by
    intro j hj
    rw [← hdrop, occAt_drop]
    exact hnext (pre.length + 7 + j) (by omega) (by omega)
  have hfindF : findSubL "```".data (mid ++ ("```".data ++ post)) = some mid.length :=
    findSubL_eq_some_of _ _ _ hoccF hminF
  have hcast : ((pre.length : Int) + 7) = ((pre.length + 7 : Nat) : Int) := by
    push_cast
    ring
  have hpff : pyFindFrom t "```" ((pre.length : Int) + 7) =
      ((mid.length + (pre.length + 7) : Nat) : Int) := by
    simp only [pyFindFrom]
    rw [hcast, clampIdx_natCast _ _ hlen, hdrop, hfindF]
  have ht3 : t.data = (pre ++ "```json".data) ++ mid ++ ("```".data ++ post) := by
    rw [ht2]
    simp [List.append_assoc]
  have hslice := pySlice_extract t (pre ++ "```json".data) mid ("```".data ++ post) ht3
  rw [hlen2] at hslice
  have hb : ((pre.length + 7 + mid.length : Nat) : Int) =
      ((mid.length + (pre.length + 7) : Nat) : Int) := by
    push_cast
    ring
  rw [hb, hcast.symm] at hslice
  refine ⟨hC, ?_⟩
  rw [hpf, hpff, hslice]

theorem extractA_fence1 (t : String) (pre mid post : List Char)
    (ht : t.data = pre ++ "```json".data ++ mid ++ "```".data ++ post)
    (hfirst : ∀ j, j < pre.length → occAt "```json".data t.data j = false)
    (hnext : ∀ j, j < pre.length + 7 + mid.length → pre.length + 7 ≤ j →
      occAt "```".data t.data j = false) :
    extractA t = pyStrip (String.mk mid) := by
  obtain ⟨h1, h2⟩ := fenceJson_compute t pre mid post ht hfirst hnext
  rw [extractA, h1]
  simpa using h2

theorem extractB_fence1 (t : String) (pre mid post : List Char)
    (ht : t.data = pre ++ "```json".data ++ mid ++ "```".data ++ post)
    (hfirst : ∀ j, j < pre.length → occAt "```json".data t.data j = false)
    (hnext : ∀ j, j < pre.length + 7 + mid.length → pre.length + 7 ≤ j →
      occAt "```".data t.data j = false) :
    extractB t = pyStrip (String.mk mid) := by
  obtain ⟨h1, h2⟩ := fenceJson_compute t pre mid post ht hfirst hnext
  rw [extractB, h1]
  simpa using h2

theorem fence2_compute (t : String) (pre mid post : List Char)
    (ht : t.data = pre ++ "```".data ++ mid ++ "```".data ++ post)
    (hfirst : ∀ j, j < pre.length → occAt "```".data t.data j = false)
    (hlast : ∀ j, j < t.data.length → pre.length + 3 + mid.length < j →
      occAt "```".data t.data j = false) :
    pyContains t "```" = true ∧
    pyStrip (pySlice t (pyFind t "```" + 3) (pyRfind t "```")) = pyStrip (String.mk mid) := by
  have htr : t.data = pre ++ ("```".data ++ (mid ++ ("```".data ++ post))) := by
    rw [ht]
    simp [List.append_assoc]
  have hocc : occAt "```".data t.data pre.length = true := by
    rw [htr]
    exact occAt_append pre "```".data (mid ++ ("```".data ++ post))
  have hfind : findSubL "```".data t.data = some pre.length :=
    findSubL_eq_some_of _ _ _ hocc hfirst
  have hC : pyContains t "```" = true := by
    rw [pyContains, hfind]
    rfl
  have hpf : pyFind t "```" = (pre.length : Int) := by
    rw [pyFind, hfind]
  have ht2 : t.data = ((pre ++ "```".data) ++ mid) ++ ("```".data ++ post) := by
    rw [htr]
    simp [List.append_assoc]
  have hlenu : ((pre ++ "```".data) ++ mid).length = pre.length + 3 + mid.length := by
    simp [List.length_append]
    omega
  have hoccB : occAt "```".data t.data (pre.length + 3 + mid.length) = true := by
    rw [occAt, ht2, List.drop_left' hlenu, isPre_iff]
    exact ⟨post, rfl⟩
  have hmax : ∀ j, pre.length + 3 + mid.length < j → occAt "```".data t.data j = false := by
    intro j hj
    by_cases hjl : j < t.data.length
    · exact hlast j hjl hj
    · exact occAt_ge_length _ (by decide) _ _ (by omega)
  have hrf : pyRfind t "```" = ((pre.length + 3 + mid.length : Nat) : Int) :=
    pyRfind_eq_of t "```" (by decide) _ hoccB hmax
  have hslice := pySlice_extract t (pre ++ "```".data) mid ("```".data ++ post) ht2
  have hlenpf : (pre ++ "```".data).length = pre.length + 3 := by
    simp [List.length_append]
  rw [hlenpf] at hslice
  have hcast : ((pre.length + 3 : Nat) : Int) = (pre.length : Int) + 3 := by
    push_cast
    ring
  rw [hcast] at hslice
  refine ⟨hC, ?_⟩
  rw [hpf, hrf, hslice]

theorem extractA_fence2 (t : String) (pre mid post : List Char)
    (hnj : pyContains t "```json" = false)
    (ht : t.data = pre ++ "```".data ++ mid ++ "```".data ++ post)
    (hfirst : ∀ j, j < pre.length → occAt "```".data t.data j = false)
    (hlast : ∀ j, j < t.data.length → pre.length + 3 + mid.length < j →
      occAt "```".data t.data j = false) :
    extractA t = pyStrip (String.mk mid) := by
  obtain ⟨h1, h2⟩ := fence2_compute t pre mid post ht hfirst hlast
  rw [extractA, hnj, h1]
  simpa using h2

theorem extractB_fence2 (t : String) (pre mid post : List Char)
    (hnj : pyContains t "```json" = false)
    (ht : t.data = pre ++ "```".data ++ mid ++ "```".data ++ post)
    (hfirst : ∀ j, j < pre.length → occAt "```".data t.data j = false)
    (hlast : ∀ j, j < t.data.length → pre.length + 3 + mid.length < j →
      occAt "```".data t.data j = false) :
    extractB t = pyStrip (String.mk mid) := by
  obtain ⟨h1, h2⟩ := fence2_compute t pre mid post ht hfirst hlast
  rw [extractB, hnj, h1]
  simpa using h2

theorem brace_compute (t : String) (pre mid post : List Char)
    (ht : t.data = pre ++ "\x7b".data ++ mid ++ "\x7d".data ++ post)
    (hfirst : ∀ j, j < pre.length → occAt "\x7b".data t.data j = false)
    (hlast : ∀ j, j < t.data.length → pre.length + 1 + mid.length < j →
      occAt "\x7d".data t.data j = false) :
    pyContains t "\x7b" = true ∧ pyContains t "\x7d" = true ∧
    pySlice t (pyFind t "\x7b") (pyRfind t "\x7d" + 1) =
      String.mk ("\x7b".data ++ mid ++ "\x7d".data) := by
  have htr : t.data = pre ++ ("\x7b".data ++ (mid ++ ("\x7d".data ++ post))) := by
    rw [ht]
    simp [List.append_assoc]
  have hocc : occAt "\x7b".data t.data pre.length = true := by
    rw [htr]
    exact occAt_append pre "\x7b".data (mid ++ ("\x7d".data ++ post))
  have hfind : findSubL "\x7b".data t.data = some pre.length :=
    findSubL_eq_some_of _ _ _ hocc hfirst
  have hC1 : pyContains t "\x7b" = true := by
    rw [pyContains, hfind]
    rfl
  have hpf : pyFind t "\x7b" = (pre.length : Int) := by
    rw [pyFind, hfind]
  have ht2 : t.data = ((pre ++ "\x7b".data) ++ mid) ++ ("\x7d".data ++ post) := by
    rw [htr]
    simp [List.append_assoc]
  have hlenu : ((pre ++ "\x7b".data) ++ mid).length = pre.length + 1 + mid.length := by
    simp [List.length_append]
    omega
  have hoccB : occAt "\x7d".data t.data (pre.length + 1 + mid.length) = true := by
    rw [occAt, ht2, List.drop_left' hlenu, isPre_iff]
    exact ⟨post, rfl⟩
  have hC2 : pyContains t "\x7d" = true := pyContains_of_occ t "\x7d" _ hoccB
  have hmax : ∀ j, pre.length + 1 + mid.length < j → occAt "\x7d".data t.data j = false := by
    intro j hj
    by_cases hjl : j < t.data.length
    · exact hlast j hjl hj
    · exact occAt_ge_length _ (by decide) _ _ (by omega)
  have hrf : pyRfind t "\x7d" = ((pre.length + 1 + mid.length : Nat) : Int) :=
    pyRfind_eq_of t "\x7d" (by decide) _ hoccB hmax
  have ht4 : t.data = pre ++ ("\x7b".data ++ mid ++ "\x7d".data) ++ post := by
    rw [htr]
    simp [List.append_assoc]
  have hslice := pySlice_extract t pre ("\x7b".data ++ mid ++ "\x7d".data) post ht4
  have hb : ((pre.length + ("\x7b".data ++ mid ++ "\x7d".data).length : Nat) : Int) =
      ((pre.length + 1 + mid.length : Nat) : Int) + 1 := by
    have hv : ("\x7b".data ++ mid ++ "\x7d".data).length = mid.length + 2 := by
      simp [List.length_append]
    rw [hv]
    push_cast
    ring
  rw [hb] at hslice
  exact ⟨hC1, hC2, by rw [hpf, hrf, hslice]⟩

theorem extractA_brace (t : String) (pre mid post : List Char)
    (hnf : pyContains t "```" = false)
    (ht : t.data = pre ++ "\x7b".data ++ mid ++ "\x7d".data ++ post)
    (hfirst : ∀ j, j < pre.length → occAt "\x7b".data t.data j = false)
    (hlast : ∀ j, j < t.data.length → pre.length + 1 + mid.length < j →
      occAt "\x7d".data t.data j = false) :
    extractA t = String.mk ("\x7b".data ++ mid ++ "\x7d".data) := by
  obtain ⟨h1, h2, h3⟩ := brace_compute t pre mid post ht hfirst hlast
  rw [extractA, pyContains_json_false t hnf, hnf, h1, h2]
  simpa using h3

theorem extractB_brace (t : String) (pre mid post : List Char)
    (hnf : pyContains t "```" = false)
    (ht : t.data = pre ++ "\x7b".data ++ mid ++ "\x7d".data ++ post)
    (hfirst : ∀ j, j < pre.length → occAt "\x7b".data t.data j = false)
    (hlast : ∀ j, j < t.data.length → pre.length + 1 + mid.length < j →
      occAt "\x7d".data t.data j = false) :
    extractB t = String.mk ("\x7b".data ++ mid ++ "\x7d".data) := by
  obtain ⟨h1, h2, h3⟩ := brace_compute t pre mid post ht hfirst hlast
  rw [extractB, pyContains_json_false t hnf, hnf]
  simpa using h3

theorem extractA_raw (t : String) (hnf : pyContains t "```" = false)
    (hno : pyContains t "\x7b" = false ∨ pyContains t "\x7d" = false) :
    extractA t = t := by
  rw [extractA, pyContains_json_false t hnf, hnf]
  rcases hno with h | h <;> simp [h]

theorem extractB_nobrace (t : String) (hnf : pyContains t "```" = false)
    (h1 : ∀ j, j < t.data.length → occAt "\x7b".data t.data j = false)
    (h2 : ∀ j, j < t.data.length → occAt "\x7d".data t.data j = false) :
    extractB t = "" := by
  have h1' : ∀ j, occAt "\x7b".data t.data j = false := by
    intro j
    by_cases hj : j < t.data.length
    · exact h1 j hj
    · exact occAt_ge_length _ (by decide) _ _ (by omega)
  have h2' : ∀ j, occAt "\x7d".data t.data j = false := by
    intro j
    by_cases hj : j < t.data.length
    · exact h2 j hj
    · exact occAt_ge_length _ (by decide) _ _ (by omega)
  rw [extractB, pyContains_json_false t hnf, hnf,
    pyFind_eq_neg_of t "\x7b" h1', pyRfind_eq_neg_of t "\x7d" h2']
  simp [pySlice, pySliceL, clampIdx]

theorem hasKey_iff_lookupV (kvs : List (String × JVal)) (k : String) :
    hasKey kvs k = true ↔ ∃ v, lookupV kvs k = some v := by
  rw [hasKey, lookupV]
  constructor
  · intro h
    rcases List.any_eq_true.mp h with ⟨kv, hmem, hkv⟩
    have hsome : (kvs.find? (fun kv => kv.1 == k)).isSome := by
      rw [List.find?_isSome]
      exact ⟨kv, hmem, hkv⟩
    rcases Option.isSome_iff_exists.mp hsome with ⟨kv0, hkv0⟩
    refine ⟨kv0.2, ?_⟩
    rw [hkv0]
    rfl
  · rintro ⟨v, hv⟩
    rcases Option.map_eq_some'.mp hv with ⟨kv0, hkv0, rfl⟩
    rw [List.any_eq_true]
    have hp := List.find?_some hkv0
    exact ⟨kv0, List.mem_of_find?_eq_some hkv0, hp⟩

theorem lookupV_dictSet_self (kvs : List (String × JVal)) (k : String) (x : JVal) :
    lookupV (dictSet kvs k x) k = some x := by
  rw [dictSet]
  by_cases h : hasKey kvs k
  · rw [if_pos h, lookupV, List.find?_map]
    have hpred : ((fun kv : String × JVal => kv.1 == k) ∘
        (fun kv : String × JVal => if kv.1 == k then (k, x) else kv)) =
        fun kv : String × JVal => kv.1 == k := by
      funext kv
      by_cases hk : kv.1 = k
      · simp [hk]
      · simp [hk]
    rw [hpred]
    rcases (hasKey_iff_lookupV kvs k).mp h with ⟨v, hv⟩
    rcases Option.map_eq_some'.mp hv with ⟨kv0, hkv0, rfl⟩
    have hkv0p := List.find?_some hkv0
    rw [hkv0]
    simp only [Option.map_map, Option.map_some', Function.comp]
    rw [if_pos hkv0p]
  · rw [if_neg h, lookupV, List.find?_append]
    have hnone : kvs.find? (fun kv => kv.1 == k) = none := by
      rw [List.find?_eq_none]
      intro kv hmem hkv
      exact h (List.any_eq_true.mpr ⟨kv, hmem, hkv⟩)
    rw [hnone]
    simp [List.find?]

theorem lookupV_dictSet_ne (kvs : List (String × JVal)) (k k' : String) (x : JVal)
    (h : k' ≠ k) : lookupV (dictSet kvs k x) k' = lookupV kvs k' := by
  rw [dictSet]
  by_cases hk : hasKey kvs k
  · rw [if_pos hk, lookupV, List.find?_map]
    have hpred : ((fun kv : String × JVal => kv.1 == k') ∘
        (fun kv : String × JVal => if kv.1 == k then (k, x) else kv)) =
        fun kv : String × JVal => kv.1 == k' := by
      funext kv
      by_cases hkk : kv.1 = k
      · have h1 : (kv.1 == k) = true := beq_iff_eq.mpr hkk
        have h2 : (k == k') = false := beq_eq_false_iff_ne.mpr (fun hc => h hc.symm)
        have h3 : (kv.1 == k') = false := by
          rw [beq_eq_false_iff_ne, hkk]
          exact fun hc => h hc.symm
        simp [Function.comp, h1, h2, h3]
      · have h1 : (kv.1 == k) = false := beq_eq_false_iff_ne.mpr hkk
        simp [Function.comp, h1]
    rw [hpred, lookupV]
    rcases hfind : kvs.find? (fun kv => kv.1 == k') with _ | kv0
    · rw [hfind]
      rfl
    · rw [hfind]
      have hkv0 := List.find?_some hfind
      rw [beq_iff_eq] at hkv0
      have hne : ¬ kv0.1 = k := by
        rw [hkv0]
        exact fun hc => h hc
      simp [hne]
  · rw [if_neg hk, lookupV, List.find?_append, lookupV]
    rcases hfind : kvs.find? (fun kv => kv.1 == k') with _ | kv0
    · rw [hfind]
      simp only [Option.none_or]
      have h1 : (k == k') = false := beq_eq_false_iff_ne.mpr (fun hc => h hc.symm)
      simp [List.find?, h1]
    · rw [hfind]
      simp

theorem hasKey_dictSet_ne (kvs : List (String × JVal)) (k k' : String) (x : JVal)
    (h : k' ≠ k) : hasKey (dictSet kvs k x) k' = hasKey kvs k' := by
  by_cases hk : hasKey kvs k' = true
  · rw [hk]
    rw [hasKey_iff_lookupV] at hk ⊢
    rwa [lookupV_dictSet_ne kvs k k' x h]
  · have h2 : ¬ hasKey (dictSet kvs k x) k' = true := by
      rw [hasKey_iff_lookupV, lookupV_dictSet_ne kvs k k' x h, ← hasKey_iff_lookupV]
      exact hk
    rw [Bool.eq_false_iff.mpr h2, Bool.eq_false_iff.mpr hk]

theorem fillFields_obj_spec (fields : List String) (o : List (String × JVal)) :
    ∃ o', fillFields fields (.jobj o) = .ok (.jobj o') ∧
      (∀ k v, lookupV o k = some v → lookupV o' k = some v) ∧
      (∀ f, f ∈ fields → hasKey o' f = true) ∧
      (∀ f, f ∈ fields → hasKey o f = false → lookupV o' f = some (fieldDefault f)) := by
  induction fields generalizing o with
  | nil =>
    refine ⟨o, rfl, fun k v h => h, ?_, ?_⟩
    · intro f hf
      cases hf
    · intro f hf
      cases hf
  | cons f fs ih =>
    by_cases hf : hasKey o f = true
    · rcases ih o with ⟨o', heq, hpres, hmem, hdef⟩
      refine ⟨o', ?_, hpres, ?_, ?_⟩
      · rw [fillFields] at heq
        rw [fillFields, List.foldlM_cons]
        simp only [pyIn, hf, Bind.bind, Except.bind, pure, Except.pure, if_true]
        exact heq
      · intro g hg
        rcases List.mem_cons.mp hg with rfl | hg'
        · rcases (hasKey_iff_lookupV o g).mp hf with ⟨v, hv⟩
          exact (hasKey_iff_lookupV o' g).mpr ⟨v, hpres g v hv⟩
        · exact hmem g hg'
      · intro g hg hgo
        rcases List.mem_cons.mp hg with rfl | hg'
        · rw [hgo] at hf
          cases hf
        · exact hdef g hg' hgo
    · have hf' : hasKey o f = false := Bool.eq_false_iff.mpr hf
      rcases ih (dictSet o f (fieldDefault f)) with ⟨o', heq, hpres, hmem, hdef⟩
      have hself : lookupV (dictSet o f (fieldDefault f)) f = some (fieldDefault f) :=
        lookupV_dictSet_self o f (fieldDefault f)
      refine ⟨o', ?_, ?_, ?_, ?_⟩
      · rw [fillFields] at heq
        rw [fillFields, List.foldlM_cons]
        simp only [pyIn, hf', pySetItem, Bind.bind, Except.bind, pure, Except.pure,
          Bool.false_eq_true, if_false]
        exact heq
      · intro k v hv
        by_cases hk : k = f
        · subst hk
          rw [(hasKey_iff_lookupV o k).mpr ⟨v, hv⟩] at hf'
          cases hf'
        · refine hpres k v ?_
          rwa [lookupV_dictSet_ne o f k (fieldDefault f) hk]
      · intro g hg
        rcases List.mem_cons.mp hg with rfl | hg'
        · exact (hasKey_iff_lookupV o' g).mpr ⟨fieldDefault g, hpres g (fieldDefault g) hself⟩
        · exact hmem g hg'
      · intro g hg hgo
        by_cases hgf : g = f
        · subst hgf
          exact hpres g (fieldDefault g) hself
        · rcases List.mem_cons.mp hg with rfl | hg'
          · exact absurd rfl hgf
          · refine hdef g hg' ?_
            rwa [hasKey_dictSet_ne o f g (fieldDefault f) hgf]

theorem fmt2_num (v : JVal) (h : isPyNumber v = true) : fmt2 v = .ok (fmt2Q (toQ v)) := by
  cases v with
  | jnum q => rfl
  | jbool b => rfl
  | jnull => cases h
  | jstr s => cases h
  | jarr xs => cases h
  | jobj kvs => cases h

theorem fmt2_err (v : JVal) (h : isPyNumber v = false) : fmt2 v = .error fmtErrMsg := by
  cases v with
  | jnum q => cases h
  | jbool b => cases h
  | jnull => rfl
  | jstr s => rfl
  | jarr xs => rfl
  | jobj kvs => rfl

theorem pySlice_len_le (s : String) (n : Nat) : (pySlice s 0 ((n : Nat) : Int)).data.length ≤ n := by
  show (pySliceL s.data 0 n).length ≤ n
  rw [pySliceL, List.length_drop, List.length_take]
  have h : clampIdx s.data.length ((n : Nat) : Int) ≤ n := by
    rw [clampIdx, if_neg (by omega), Int.toNat_natCast]
    exact min_le_left _ _
  omega

/-- C10: `analyze_exercise_form` never raises: for every gateway behaviour and
every poses/exercise input it returns a mapping with a boolean `success` key —
`success: true` together with an `analysis` key on the normal path, and exactly
`success: false` with an `error` message (no other keys, no partial result) on
any internal exception. -/
theorem C10_analyze_never_raises :
    ∀ (gateway : String → Except String String) (poses exerciseName : JVal),
      (∃ a, analyze_exercise_form gateway poses exerciseName =
        [("success", JVal.jbool true), ("analysis", a)]) ∨
      (∃ e, analyze_exercise_form gateway poses exerciseName =
        [("success", JVal.jbool false), ("error", JVal.jstr e)]) := by
  intro gateway poses exerciseName
  rw [analyze_exercise_form]
  split
  · exact Or.inl ⟨_, rfl⟩
  · exact Or.inr ⟨_, rfl⟩

/-- C3 counterexample: the claim says every extractor falls back to the trimmed
text unchanged when the text has no fence and no brace pair, but the
angle/issue extractor (analysis_routes.py, `/analyze-angles` and
`/analyze-form-issue`) has no such branch: on "hello" it slices from
`find('\x7b') = -1` to `rfind('\x7d') + 1 = 0` and returns the empty string. -/
theorem C3_counterexample :
    extractB "hello" = "" ∧ pyStrip "hello" = "hello" ∧
      extractB "hello" ≠ pyStrip "hello" := by
  refine ⟨rfl, rfl, ?_⟩
  decide

/-- C3 amended: extraction never raises (it is built from total string
primitives), and the priority order holds as claimed for the full-analysis and
real-time extractor `extractA` — (1) json-tagged fence, (2) substring between
the first and last fence, (3) first-'\x7b'-to-last-'\x7d' span when both braces
occur, (4) otherwise the trimmed text unchanged.  The angle/issue extractor
`extractB` shares branches (1) and (2) but has no step (4): its final branch
always takes the brace-span slice, which yields the brace span when a brace
pair exists and the empty string when the text has no braces at all. -/
theorem C3_amended_extraction_order :
    (∀ (t : String) (pre mid post : List Char),
      t.data = pre ++ "```json".data ++ mid ++ "```".data ++ post →
      (∀ j, j < pre.length → occAt "```json".data t.data j = false) →
      (∀ j, j < pre.length + 7 + mid.length → pre.length + 7 ≤ j →
        occAt "```".data t.data j = false) →
      extractA t = pyStrip (String.mk mid) ∧ extractB t = pyStrip (String.mk mid)) ∧
    (∀ (t : String) (pre mid post : List Char),
      pyContains t "```json" = false →
      t.data = pre ++ "```".data ++ mid ++ "```".data ++ post →
      (∀ j, j < pre.length → occAt "```".data t.data j = false) →
      (∀ j, j < t.data.length → pre.length + 3 + mid.length < j →
        occAt "```".data t.data j = false) →
      extractA t = pyStrip (String.mk mid) ∧ extractB t = pyStrip (String.mk mid)) ∧
    (∀ (t : String) (pre mid post : List Char),
      pyContains t "```" = false →
      t.data = pre ++ "\x7b".data ++ mid ++ "\x7d".data ++ post →
      (∀ j, j < pre.length → occAt "\x7b".data t.data j = false) →
      (∀ j, j < t.data.length → pre.length + 1 + mid.length < j →
        occAt "\x7d".data t.data j = false) →
      extractA t = String.mk ("\x7b".data ++ mid ++ "\x7d".data) ∧
      extractB t = String.mk ("\x7b".data ++ mid ++ "\x7d".data)) ∧
    (∀ t : String, pyContains t "```" = false →
      pyContains t "\x7b" = false ∨ pyContains t "\x7d" = false →
      extractA t = t) ∧
    (∀ t : String, pyContains t "```" = false →
      (∀ j, j < t.data.length → occAt "\x7b".data t.data j = false) →
      (∀ j, j < t.data.length → occAt "\x7d".data t.data j = false) →
      extractB t = "") := by
  refine ⟨?_, ?_, ?_, ?_, ?_⟩
  · intro t pre mid post ht hfirst hnext
    exact ⟨extractA_fence1 t pre mid post ht hfirst hnext,
      extractB_fence1 t pre mid post ht hfirst hnext⟩
  · intro t pre mid post hnj ht hfirst hlast
    exact ⟨extractA_fence2 t pre mid post hnj ht hfirst hlast,
      extractB_fence2 t pre mid post hnj ht hfirst hlast⟩
  · intro t pre mid post hnf ht hfirst hlast
    exact ⟨extractA_brace t pre mid post hnf ht hfirst hlast,
      extractB_brace t pre mid post hnf ht hfirst hlast⟩
  · intro t hnf hno
    exact extractA_raw t hnf hno
  · intro t hnf h1 h2
    exact extractB_nobrace t hnf h1 h2

theorem C3_amended_witness :
    extractA "x```json A``` y" = "A" ∧ extractA "u``` B ``` v" = "B" ∧
      extractA "p \x7bq\x7d r" = "\x7bq\x7d" ∧ extractA "plain" = "plain" ∧
      extractB "hi" = "" := by
  refine ⟨?_, ?_, ?_, ?_, ?_⟩
  · have h := (C3_amended_extraction_order.1 "x```json A``` y"
      "x".data " A".data " y".data rfl (by decide) (by decide)).1
    rw [h]
    rfl
  · have h := (C3_amended_extraction_order.2.1 "u``` B ``` v"
      "u".data " B ".data " v".data rfl rfl (by decide) (by decide)).1
    rw [h]
    rfl
  · have h := (C3_amended_extraction_order.2.2.1 "p \x7bq\x7d r"
      "p ".data "q".data " r".data rfl rfl (by decide) (by decide)).1
    rw [h]
    rfl
  · exact C3_amended_extraction_order.2.2.2.1 "plain" rfl (Or.inl rfl)
  · exact C3_amended_extraction_order.2.2.2.2 "hi" rfl (by decide) (by decide)

/-- C8: extraction is the identity (after trimming) on a raw string that is
exactly a JSON object with no surrounding text and no code fences: the brace
branch slices from the first character to the last, returning the whole
string, and trimming leaves it unchanged. -/
theorem C8_extraction_idempotent (t : String) (mid : List Char)
    (ht : t.data = '\x7b' :: (mid ++ ['\x7d']))
    (hnf : pyContains t "```" = false) :
    extractA t = t ∧ pyStrip t = t := by
  have hlen : t.data.length = mid.length + 2 := by
    rw [ht]
    simp
  constructor
  · have hdec : t.data = [] ++ "\x7b".data ++ mid ++ "\x7d".data ++ [] := by
      rw [ht]
      simp
    have h := extractA_brace t [] mid [] hnf hdec
      (fun j hj => by simp at hj)
      (fun j hj1 hj2 => by
        rw [hlen] at hj1
        exfalso
        simp at hj2
        omega)
    rw [h]
    have : "\x7b".data ++ mid ++ "\x7d".data = t.data := by
      rw [ht]
      simp
    rw [this, stringMk_data]
  · exact pyStrip_of_ends t '\x7b' '\x7d' mid ht (by decide) (by decide)

theorem C8_witness :
    extractA "\x7b\"a\":1\x7d" = "\x7b\"a\":1\x7d" ∧
      pyStrip "\x7b\"a\":1\x7d" = "\x7b\"a\":1\x7d" :=
  C8_extraction_idempotent "\x7b\"a\":1\x7d" "\"a\":1".data rfl rfl

/-- C2: fallback completeness — given a model text whose extracted candidate
fails to parse as JSON (for the respective extractor of each mode), every
mode's normalizer returns its fallback payload, which contains all required
fields of that mode's schema with the (trimmed) raw model text preserved
verbatim in the designated field: `overall_feedback`, `immediate_action`,
`encouragement`, or `cue` — the last truncated to at most 50 characters. -/
theorem C2_fallback_completeness (t : String) (exerciseName : JVal)
    (hA : jsonParse (extractA t) = none) (hB : jsonParse (extractB t) = none) :
    (fullProcess exerciseName t = .ok (fullFallback exerciseName t) ∧
      (∀ f, f ∈ requiredFieldsFull →
        ∃ v, pyGetItem (fullFallback exerciseName t) f = .ok v) ∧
      pyGetItem (fullFallback exerciseName t) "overall_feedback" = .ok (.jstr t)) ∧
    (realtimeProcess t = .ok (realtimeFallback t) ∧
      pyGetItem (realtimeFallback t) "critical_issues" =
        .ok (.jarr [.jstr "Form check in progress"]) ∧
      pyGetItem (realtimeFallback t) "immediate_action" = .ok (.jstr t)) ∧
    (anglesProcess t = .ok (anglesFallback t) ∧
      (∃ v, pyGetItem (anglesFallback t) "form_quality" = .ok v) ∧
      (∃ v, pyGetItem (anglesFallback t) "corrections" = .ok v) ∧
      pyGetItem (anglesFallback t) "encouragement" = .ok (.jstr t)) ∧
    (issueProcess t = .ok (issueFallback t) ∧
      (∃ v, pyGetItem (issueFallback t) "quick_fix" = .ok v) ∧
      (∃ v, pyGetItem (issueFallback t) "why_it_matters" = .ok v) ∧
      pyGetItem (issueFallback t) "cue" = .ok (.jstr (pySlice t 0 50)) ∧
      (pySlice t 0 50).data.length ≤ 50) := by
  refine ⟨⟨?_, ?_, rfl⟩, ⟨?_, rfl, rfl⟩, ⟨?_, ⟨_, rfl⟩, ⟨_, rfl⟩, rfl⟩,
    ⟨?_, ⟨_, rfl⟩, ⟨_, rfl⟩, rfl, ?_⟩⟩
  · rw [fullProcess, hA]
  · intro f hf
    rw [requiredFieldsFull] at hf
    simp only [List.mem_cons, List.not_mem_nil, or_false] at hf
    rcases hf with rfl | rfl | rfl | rfl | rfl | rfl
    · exact ⟨_, rfl⟩
    · exact ⟨_, rfl⟩
    · exact ⟨_, rfl⟩
    · exact ⟨_, rfl⟩
    · exact ⟨_, rfl⟩
    · exact ⟨_, rfl⟩
  · rw [realtimeProcess, hA]
  · rw [anglesProcess, hB]
  · rw [issueProcess, hB]
  · exact pySlice_len_le t 50

theorem C2_witness :
    fullProcess .jnull "not json" = .ok (fullFallback .jnull "not json") ∧
      realtimeProcess "not json" = .ok (realtimeFallback "not json") ∧
      anglesProcess "not json" = .ok (anglesFallback "not json") ∧
      issueProcess "not json" = .ok (issueFallback "not json") ∧
      pyGetItem (issueFallback "not json") "cue" = .ok (.jstr "not json") := by
  have h := C2_fallback_completeness "not json" .jnull rfl rfl
  refine ⟨h.1.1, h.2.1.1, h.2.2.1.1, h.2.2.2.1, ?_⟩
  rw [h.2.2.2.2.2.2.1]
  rfl

/-- C6: response malformation is never surfaced as an error — when the
gateway succeeds but returns text whose extracted candidate is not parseable
JSON, `analyze_exercise_form` still returns `success: true` carrying the
fallback analysis, and the `/real-time-feedback` route returns HTTP 200 with
`success: true` carrying the fallback feedback. -/
theorem C6_malformed_never_error :
    (∀ (raw : String) (poses exerciseName : JVal) (pt : String),
      format_pose_data CONFIDENCE_THRESHOLD poses exerciseName = .ok pt →
      jsonParse (extractA (pyStrip raw)) = none →
      analyze_exercise_form (fun _ => .ok raw) poses exerciseName =
        [("success", JVal.jbool true),
         ("analysis", fullFallback exerciseName (pyStrip raw))]) ∧
    (∀ (raw : String) (d : List (String × JVal)) (pt : String),
      pyTruthy (dictGetD d "poses" (.jarr [])) = true →
      format_pose_data CONFIDENCE_THRESHOLD (dictGetD d "poses" (.jarr []))
        (dictGetD d "exercise" (.jstr "")) = .ok pt →
      jsonParse (extractA (pyStrip raw)) = none →
      real_time_feedback (fun _ => .ok raw) (.jobj d) =
        (200, [("success", JVal.jbool true),
               ("feedback", realtimeFallback (pyStrip raw))])) := by
  constructor
  · intro raw poses exerciseName pt hfmt hparse
    rw [analyze_exercise_form]
    have hproc : fullProcess exerciseName (pyStrip raw) =
        .ok (fullFallback exerciseName (pyStrip raw)) := by
      rw [fullProcess, hparse]
    simp only [hfmt, Bind.bind, Except.bind, hproc]
  · intro raw d pt htru hfmt hparse
    rw [real_time_feedback]
    have hproc : realtimeProcess (pyStrip raw) = .ok (realtimeFallback (pyStrip raw)) := by
      rw [realtimeProcess, hparse]
    simp only [pyDictGetD, Bind.bind, Except.bind, htru, Bool.not_true, hfmt, hproc,
      Bool.false_eq_true, if_false, pure, Except.pure]

theorem C6_witness :
    analyze_exercise_form (fun _ => .ok "oops") (.jarr [.jobj []]) .jnull =
      [("success", JVal.jbool true), ("analysis", fullFallback .jnull "oops")] ∧
    real_time_feedback (fun _ => .ok "oops")
      (.jobj [("poses", .jarr [.jobj []]), ("exercise", .jstr "squat")]) =
      (200, [("success", JVal.jbool true), ("feedback", realtimeFallback "oops")]) := by
  constructor
  · have h := C6_malformed_never_error.1 "oops" (.jarr [.jobj []]) .jnull
      "POSE DATA ANALYSIS:\n\nPerson 1:\n" rfl rfl
    rw [h]
    rfl
  · have h := C6_malformed_never_error.2 "oops"
      [("poses", .jarr [.jobj []]), ("exercise", .jstr "squat")]
      "POSE DATA ANALYSIS:\n\nPerson 1:\n" rfl rfl rfl
    rw [h]
    rfl

/-- C7: real-time truncation — given a successfully parsed payload (an object
that already has an `immediate_action` key) whose `critical_issues` is a list,
the real-time normalization truncates a list of more than 3 entries to exactly
its first 3 in their original order, and leaves a list of at most 3 entries
unchanged. -/
theorem C7_realtime_truncation :
    ∀ (o : List (String × JVal)) (t : String) (xs : List JVal),
      lookupV o "critical_issues" = some (.jarr xs) →
      hasKey o "immediate_action" = true →
      (3 < xs.length →
        realtimeFill (.jobj o) t =
          .ok (.jobj (dictSet o "critical_issues" (.jarr (xs.take 3)))) ∧
        (xs.take 3).length = 3 ∧
        lookupV (dictSet o "critical_issues" (.jarr (xs.take 3))) "critical_issues" =
          some (.jarr (xs.take 3))) ∧
      (xs.length ≤ 3 → realtimeFill (.jobj o) t = .ok (.jobj o)) := by
  intro o t xs hci hia
  have hkey : hasKey o "critical_issues" = true :=
    (hasKey_iff_lookupV o "critical_issues").mpr ⟨_, hci⟩
  constructor
  · intro h3
    refine ⟨?_, ?_, lookupV_dictSet_self o "critical_issues" (.jarr (xs.take 3))⟩
    · rw [realtimeFill]
      simp only [pyIn, hkey, hia, Bind.bind, Except.bind, if_true, pyGetItem, hci,
        pyLen, pySliceVal, pySetItem, pure, Except.pure]
      rw [if_pos h3]
    · rw [List.length_take]
      omega
  · intro h3
    rw [realtimeFill]
    simp only [pyIn, hkey, hia, Bind.bind, Except.bind, if_true, pyGetItem, hci,
      pyLen, pySliceVal, pySetItem, pure, Except.pure]
    rw [if_neg (by omega)]

theorem C7_witness :
    realtimeFill (.jobj [("critical_issues",
        .jarr [.jstr "a", .jstr "b", .jstr "c", .jstr "d", .jstr "e"]),
      ("immediate_action", .jstr "x")]) "" =
      .ok (.jobj [("critical_issues", .jarr [.jstr "a", .jstr "b", .jstr "c"]),
        ("immediate_action", .jstr "x")]) ∧
    realtimeFill (.jobj [("critical_issues", .jarr [.jstr "a", .jstr "b"]),
      ("immediate_action", .jstr "x")]) "" =
      .ok (.jobj [("critical_issues", .jarr [.jstr "a", .jstr "b"]),
        ("immediate_action", .jstr "x")]) := by
  constructor
  · have h := ((C7_realtime_truncation
      [("critical_issues", .jarr [.jstr "a", .jstr "b", .jstr "c", .jstr "d", .jstr "e"]),
       ("immediate_action", .jstr "x")] ""
      [.jstr "a", .jstr "b", .jstr "c", .jstr "d", .jstr "e"] rfl rfl).1 (by simp)).1
    rw [h]
    rfl
  · exact (C7_realtime_truncation
      [("critical_issues", .jarr [.jstr "a", .jstr "b"]), ("immediate_action", .jstr "x")]
      "" [.jstr "a", .jstr "b"] rfl rfl).2 (by simp)

/-- C1 counterexample: the claim says every mode synthesizes defaults for
absent required fields on a successful parse, but the `/analyze-angles`
response processing performs no defaulting at all on the success path: the
candidate "\x7b\x7d" parses to the empty object, which is returned with its
required field `form_quality` still absent. -/
theorem C1_counterexample :
    anglesProcess "\x7b\x7d" = .ok (.jobj []) ∧
      hasKey ([] : List (String × JVal)) "form_quality" = false :=
  ⟨rfl, rfl⟩

/-- C1 amended: on a successful parse, only the full-analysis mode
synthesizes a default for each absent required field (an empty list for
issues/corrections/positives, an empty string for the other fields, present
fields untouched); the real-time mode synthesizes only `critical_issues`
(defaulting to the empty list) and `immediate_action` (defaulting to the
trimmed raw model text, not an empty string); the angle-analysis and
issue-coaching modes perform no defaulting — the parsed value is returned
as-is, so absent required fields remain absent. -/
theorem C1_amended_defaulting :
    (∀ o : List (String × JVal), ∃ o',
      fillRequiredFull (.jobj o) = .ok (.jobj o') ∧
      (∀ k v, lookupV o k = some v → lookupV o' k = some v) ∧
      (∀ f, f ∈ requiredFieldsFull → hasKey o' f = true) ∧
      (∀ f, f ∈ requiredFieldsFull → hasKey o f = false →
        lookupV o' f =
          some (if listFieldsFull.contains f then JVal.jarr [] else JVal.jstr ""))) ∧
    (∀ (o : List (String × JVal)) (t : String),
      hasKey o "critical_issues" = false → hasKey o "immediate_action" = false →
      realtimeFill (.jobj o) t =
        .ok (.jobj (dictSet (dictSet o "critical_issues" (.jarr []))
          "immediate_action" (.jstr t))) ∧
      lookupV (dictSet (dictSet o "critical_issues" (.jarr []))
          "immediate_action" (.jstr t)) "critical_issues" = some (.jarr []) ∧
      lookupV (dictSet (dictSet o "critical_issues" (.jarr []))
          "immediate_action" (.jstr t)) "immediate_action" = some (.jstr t)) ∧
    (∀ (t : String) (a : JVal), jsonParse (extractB t) = some a →
      anglesProcess t = .ok a ∧ issueProcess t = .ok a) := by
  refine ⟨?_, ?_, ?_⟩
  · intro o
    rcases fillFields_obj_spec requiredFieldsFull o with ⟨o', heq, hpres, hmem, hdef⟩
    exact ⟨o', heq, hpres, hmem, fun f hf hfo => hdef f hf hfo⟩
  · intro o t hci hia
    have hne : "immediate_action" ≠ "critical_issues" := by decide
    have hcilook : lookupV (dictSet (dictSet o "critical_issues" (.jarr []))
        "immediate_action" (.jstr t)) "critical_issues" = some (.jarr []) := by
      rw [lookupV_dictSet_ne _ _ _ _ (by decide)]
      exact lookupV_dictSet_self o "critical_issues" (.jarr [])
    have hialook : lookupV (dictSet (dictSet o "critical_issues" (.jarr []))
        "immediate_action" (.jstr t)) "immediate_action" = some (.jstr t) :=
      lookupV_dictSet_self _ "immediate_action" (.jstr t)
    refine ⟨?_, hcilook, hialook⟩
    have hia1 : hasKey (dictSet o "critical_issues" (.jarr [])) "immediate_action" = false := by
      rw [hasKey_dictSet_ne o "critical_issues" "immediate_action" (.jarr []) hne]
      exact hia
    rw [realtimeFill]
    simp only [pyIn, hci, hia1, Bind.bind, Except.bind, Bool.false_eq_true, if_false,
      pySetItem, pyGetItem, hcilook, pyLen, pure, Except.pure]
    rw [if_neg (by simp)]
  · intro t a h
    constructor
    · rw [anglesProcess, h]
    · rw [issueProcess, h]

theorem C1_amended_witness :
    (∃ o', fillRequiredFull (.jobj [("form_score", .jnum 7)]) = .ok (.jobj o') ∧
      lookupV o' "issues" = some (.jarr []) ∧
      lookupV o' "overall_feedback" = some (.jstr "") ∧
      lookupV o' "form_score" = some (.jnum 7)) ∧
    realtimeFill (.jobj []) "raw text" =
      .ok (.jobj [("critical_issues", .jarr []), ("immediate_action", .jstr "raw text")]) ∧
    anglesProcess "\x7b\"k\":true\x7d" = .ok (.jobj [("k", .jbool true)]) := by
  refine ⟨?_, ?_, ?_⟩
  · rcases C1_amended_defaulting.1 [("form_score", .jnum 7)] with ⟨o', heq, hpres, hmem, hdef⟩
    refine ⟨o', heq, ?_, ?_, ?_⟩
    · have h := hdef "issues" (by decide) rfl
      simpa using h
    · have h := hdef "overall_feedback" (by decide) rfl
      simpa using h
    · exact hpres "form_score" (.jnum 7) rfl
  · have h := (C1_amended_defaulting.2.1 [] "raw text" rfl rfl).1
    rw [h]
    rfl
  · exact (C1_amended_defaulting.2.2 "\x7b\"k\":true\x7d" (.jobj [("k", .jbool true)]) rfl).1

theorem confid_gate_example :
    CONFIDENCE_THRESHOLD < toQ (dictGetD [("confidence", JVal.jnum 1)]
      "confidence" (.jnum 0)) := by
  decide

theorem formatLandmark_missing_x (name : String) :
    formatLandmark CONFIDENCE_THRESHOLD name
      (.jobj [("confidence", JVal.jnum 1)]) = .error fmtErrMsg := rfl

/-- C4 counterexample: a retained observation whose confidence (0.9) is
numeric and strictly above the default threshold but whose `x` key is absent
does not produce a line — the `:.2f` format of the defaulted string `'N/A'`
raises instead, contradicting the claim that a line always appears when the
confidence passes. -/
theorem C4_counterexample :
    isPyNumber (dictGetD [("confidence", JVal.jnum 1)] "confidence" (.jnum 0)) = true ∧
    CONFIDENCE_THRESHOLD < toQ (dictGetD [("confidence", JVal.jnum 1)]
      "confidence" (.jnum 0)) ∧
    formatLandmark CONFIDENCE_THRESHOLD "leftKnee"
      (.jobj [("confidence", JVal.jnum 1)]) = .error fmtErrMsg :=
  ⟨rfl, confid_gate_example, formatLandmark_missing_x "leftKnee"⟩

/-- C4 amended: for a retained (dict-valued) landmark observation, no line is
emitted when the fetched confidence is non-numeric or not strictly above the
threshold; when the confidence is numeric and strictly above the threshold
and the fetched x, y, z are numeric, a line is emitted rendering each of x,
y, z and the confidence with the two-decimal-place format; but when the
confidence passes and any of x, y, z is non-numeric (in particular absent,
defaulting to the string 'N/A'), formatting raises instead of emitting or
dropping the line. -/
theorem C4_amended_confidence_gate :
    ∀ (threshold : ℚ) (name : String) (kvs : List (String × JVal)),
      (¬(isPyNumber (dictGetD kvs "confidence" (.jnum 0)) = true ∧
          threshold < toQ (dictGetD kvs "confidence" (.jnum 0))) →
        formatLandmark threshold name (.jobj kvs) = .ok none) ∧
      (isPyNumber (dictGetD kvs "confidence" (.jnum 0)) = true →
        threshold < toQ (dictGetD kvs "confidence" (.jnum 0)) →
        isPyNumber (dictGetD kvs "x" (.jstr "N/A")) = true →
        isPyNumber (dictGetD kvs "y" (.jstr "N/A")) = true →
        isPyNumber (dictGetD kvs "z" (.jstr "N/A")) = true →
        formatLandmark threshold name (.jobj kvs) = .ok (some ("  • " ++ name ++ ": x=" ++
          fmt2Q (toQ (dictGetD kvs "x" (.jstr "N/A"))) ++ ", y=" ++
          fmt2Q (toQ (dictGetD kvs "y" (.jstr "N/A"))) ++ ", z=" ++
          fmt2Q (toQ (dictGetD kvs "z" (.jstr "N/A"))) ++ " (conf: " ++
          fmt2Q (toQ (dictGetD kvs "confidence" (.jnum 0))) ++ ")\n"))) ∧
      (isPyNumber (dictGetD kvs "confidence" (.jnum 0)) = true →
        threshold < toQ (dictGetD kvs "confidence" (.jnum 0)) →
        (isPyNumber (dictGetD kvs "x" (.jstr "N/A")) = false ∨
         isPyNumber (dictGetD kvs "y" (.jstr "N/A")) = false ∨
         isPyNumber (dictGetD kvs "z" (.jstr "N/A")) = false) →
        formatLandmark threshold name (.jobj kvs) = .error fmtErrMsg) := by
  intro threshold name kvs
  refine ⟨?_, ?_, ?_⟩
  · intro h
    have hcond : ¬((isPyNumber (dictGetD kvs "confidence" (.jnum 0)) &&
        decide (threshold < toQ (dictGetD kvs "confidence" (.jnum 0)))) = true) := by
      rw [Bool.and_eq_true, decide_eq_true_eq]
      exact h
    rw [formatLandmark, if_neg hcond]
    rfl
  · intro hc hlt hx hy hz
    have hcond : (isPyNumber (dictGetD kvs "confidence" (.jnum 0)) &&
        decide (threshold < toQ (dictGetD kvs "confidence" (.jnum 0)))) = true := by
      rw [Bool.and_eq_true, decide_eq_true_eq]
      exact ⟨hc, hlt⟩
    rw [formatLandmark, if_pos hcond]
    rw [fmt2_num _ hx, fmt2_num _ hy, fmt2_num _ hz, fmt2_num _ hc]
    rfl
  · intro hc hlt hor
    have hcond : (isPyNumber (dictGetD kvs "confidence" (.jnum 0)) &&
        decide (threshold < toQ (dictGetD kvs "confidence" (.jnum 0)))) = true := by
      rw [Bool.and_eq_true, decide_eq_true_eq]
      exact ⟨hc, hlt⟩
    rw [formatLandmark, if_pos hcond]
    rcases hor with h | h | h
    · rw [fmt2_err _ h]
      rfl
    · by_cases hx : isPyNumber (dictGetD kvs "x" (.jstr "N/A")) = true
      · rw [fmt2_num _ hx, fmt2_err _ h]
        rfl
      · rw [fmt2_err _ (Bool.eq_false_iff.mpr hx)]
        rfl
    · by_cases hx : isPyNumber (dictGetD kvs "x" (.jstr "N/A")) = true
      · by_cases hy : isPyNumber (dictGetD kvs "y" (.jstr "N/A")) = true
        · rw [fmt2_num _ hx, fmt2_num _ hy, fmt2_err _ h]
          rfl
        · rw [fmt2_num _ hx, fmt2_err _ (Bool.eq_false_iff.mpr hy)]
          rfl
      · rw [fmt2_err _ (Bool.eq_false_iff.mpr hx)]
        rfl

theorem C4_amended_witness :
    formatLandmark 0 "leftKnee" (.jobj [("x", .jnum 1), ("y", .jnum 2), ("z", .jnum 3),
      ("confidence", .jnum 1)]) = .ok (some ("  • leftKnee: x=" ++ fmt2Q 1 ++ ", y=" ++
        fmt2Q 2 ++ ", z=" ++ fmt2Q 3 ++ " (conf: " ++ fmt2Q 1 ++ ")\n")) ∧
    formatLandmark 0 "nose" (.jobj [("x", .jnum 1), ("confidence", .jstr "high")]) =
      .ok none ∧
    formatLandmark 0 "hip" (.jobj [("y", .jnum 2), ("confidence", .jnum 1)]) =
      .error fmtErrMsg := by
  refine ⟨?_, ?_, ?_⟩
  · have h := (C4_amended_confidence_gate 0 "leftKnee"
      [("x", .jnum 1), ("y", .jnum 2), ("z", .jnum 3), ("confidence", .jnum 1)]).2.1
      rfl (by show (0 : ℚ) < 1; norm_num) rfl rfl rfl
    rw [h]
    rfl
  · exact (C4_amended_confidence_gate 0 "nose"
      [("x", .jnum 1), ("confidence", .jstr "high")]).1 (fun hab => absurd hab.1 (by decide))
  · exact ((C4_amended_confidence_gate 0 "hip"
      [("y", .jnum 2), ("confidence", .jnum 1)]).2.2
      rfl (by show (0 : ℚ) < 1; norm_num) (Or.inl rfl))

/-- C9: `format_pose_data` is not total over structurally valid pose frames —
for a landmark whose confidence is numeric and strictly above the default
threshold but whose `x` key is absent, the missing coordinate defaults to the
string `'N/A'` and the two-decimal-place format raises a `ValueError` instead
of emitting a line or silently dropping the observation. -/
theorem C9_formatter_not_total :
    dictGetD [("confidence", JVal.jnum 1)] "x" (.jstr "N/A") = .jstr "N/A" ∧
    fmt2 (.jstr "N/A") = .error fmtErrMsg ∧
    format_pose_data CONFIDENCE_THRESHOLD
      (.jarr [.jobj [("landmarks",
        .jobj [("leftAnkle", .jobj [("confidence", JVal.jnum 1)])])]])
      .jnull = .error fmtErrMsg :=
  ⟨rfl, rfl, rfl⟩

/-- C5: landmark filtering — when the exercise name's lower-cased form has a
(non-empty) profile in the landmark table, every retained observation's
identifier belongs to that profile and the frame's own landmark order is
preserved (the retained identifier sequence is a sublist of the frame's); when
the lookup yields no profile (unrecognized or absent exercise name), all
observations are kept — no landmark is filtered out by name.  Lines are
emitted by `formatPose` exactly from `shownLandmarks`' result, so every
emitted line's identifier is a retained one. -/
theorem C5_profile_filtering :
    (∀ (exerciseName : JVal) (prof : List String) (landmarks : JVal)
        (kvs shown : List (String × JVal)),
      lookupProfile exerciseName = .ok (some prof) → prof ≠ [] →
      pyItems landmarks = .ok kvs →
      shownLandmarks (some prof) landmarks = .ok shown →
      (∀ kv, kv ∈ shown → kv.1 ∈ prof) ∧
        List.Sublist (shown.map Prod.fst) (kvs.map Prod.fst)) ∧
    (∀ (exerciseName : JVal) (landmarks : JVal) (kvs : List (String × JVal)),
      lookupProfile exerciseName = .ok none →
      pyItems landmarks = .ok kvs →
      shownLandmarks none landmarks = .ok kvs) := by
  constructor
  · intro exerciseName prof landmarks kvs shown hprof hne hitems hshown
    rw [shownLandmarks] at hshown
    simp only [hitems, Bind.bind, Except.bind] at hshown
    rw [if_neg (by simpa using hne)] at hshown
    have hsh : shown = kvs.filter (fun kv => prof.contains kv.1) := by
      have := hshown
      simp only [pure, Except.pure, Except.ok.injEq] at this
      exact this.symm
    subst hsh
    constructor
    · intro kv hkv
      have hmem := List.mem_filter.mp hkv
      exact List.elem_iff.mp hmem.2
    · exact List.Sublist.map Prod.fst (List.filter_sublist kvs)
  · intro exerciseName landmarks kvs hprof hitems
    rw [shownLandmarks]
    simp only [hitems, Bind.bind, Except.bind]
    rfl

theorem C5_witness :
    lookupProfile (.jstr "Squat") = .ok (some ["leftHip", "rightHip", "leftKnee",
      "rightKnee", "leftAnkle", "rightAnkle", "leftShoulder", "rightShoulder"]) ∧
    shownLandmarks (some ["leftHip", "rightHip", "leftKnee", "rightKnee", "leftAnkle",
      "rightAnkle", "leftShoulder", "rightShoulder"])
      (.jobj [("leftKnee", .jnull), ("nose", .jnull)]) = .ok [("leftKnee", .jnull)] ∧
    (∀ kv, kv ∈ [(("leftKnee" : String), JVal.jnull)] → kv.1 ∈ ["leftHip", "rightHip",
      "leftKnee", "rightKnee", "leftAnkle", "rightAnkle", "leftShoulder", "rightShoulder"]) ∧
    lookupProfile (.jstr "yoga") = .ok none ∧
    shownLandmarks none (.jobj [("leftKnee", .jnull), ("nose", .jnull)]) =
      .ok [("leftKnee", .jnull), ("nose", .jnull)] := by
  refine ⟨rfl, rfl, ?_, rfl, ?_⟩
  · exact ((C5_profile_filtering.1 (.jstr "Squat") ["leftHip", "rightHip", "leftKnee",
      "rightKnee", "leftAnkle", "rightAnkle", "leftShoulder", "rightShoulder"]
      (.jobj [("leftKnee", .jnull), ("nose", .jnull)])
      [("leftKnee", .jnull), ("nose", .jnull)] [("leftKnee", .jnull)]
      rfl (by decide) rfl rfl).1)
  · exact C5_profile_filtering.2 (.jstr "yoga")
      (.jobj [("leftKnee", .jnull), ("nose", .jnull)])
      [("leftKnee", .jnull), ("nose", .jnull)] rfl rfl
